import Mathlib

/-!
Shallow embedding of the mine auto-uploader core (uploadJob.js, tokenService,
videoService.js, youtubeService.js, emailService, helpers.js) and proofs about
the claimed properties of its orchestration engine.

Conventions of the embedding:
* JavaScript numbers used as timestamps are `Int` (milliseconds); counters are `Nat`.
* Fallible async calls are oracles passed in as `Except String α` values (the
  outcome that the external world produces for that call in this run).
* Mongoose documents are immutable records threaded through the functions;
  `save()` is modelled as the updated record being the function's output
  (write-through persistence, per the persistence contract).
* JS `string.includes(pat)` is modelled by `includesSubstr`.
-/

namespace Mine

/-- JS `s.includes(pat)` on char lists: `pat` occurs contiguously in `hay`. -/
def listStartsWith : List Char → List Char → Bool
  | _, [] => true
  | [], _ :: _ => false
  | a :: as, b :: bs => a == b && listStartsWith as bs

/-- Substring occurrence check, recursing over the haystack. -/
def listIncludes : List Char → List Char → Bool
  | hay, pat =>
    listStartsWith hay pat ||
      match hay with
      | [] => false
      | _ :: t => listIncludes t pat

/-- JS `s.includes(pat)`. -/
def includesSubstr (s pat : String) : Bool :=
  listIncludes s.toList pat.toList

/-! ## Backoff Executor — helpers.js `retryWithBackoff` (lines 125–143)

The zero-argument operation `fn` is modelled as a stream `attempts : Nat → Except ε α`
giving the outcome of its (i+1)-th invocation.  The model returns the overall
outcome together with the list of sleep durations performed, in order.
`Except.error none` stands for the JS `throw lastError` with `lastError`
still `undefined` (only reachable when `maxRetries = 0`). -/

/-- One loop iteration of `retryWithBackoff`: `i` is the 0-based attempt index,
`fuel` the number of loop iterations left (`maxRetries - i`).  The JS guard
`i < maxRetries - 1` for sleeping is exactly `fuel ≠ 1`, i.e. the recursive
call receives nonzero fuel. -/
def retryGo (attempts : Nat → Except ε α) (baseDelay : Nat) :
    Nat → Option ε → Nat → Except (Option ε) α × List Nat
  | _, last, 0 => (.error last, [])
  | i, _, fuel + 1 =>
    match attempts i with
    | .ok a => (.ok a, [])
    | .error e =>
      let r := retryGo attempts baseDelay (i + 1) (some e) fuel
      if fuel = 0 then r else (r.1, baseDelay * 2 ^ i :: r.2)

/-- helpers.js `retryWithBackoff(fn, maxRetries, baseDelay)`. -/
def retryWithBackoff (attempts : Nat → Except ε α) (maxRetries baseDelay : Nat) :
    Except (Option ε) α × List Nat :=
  retryGo attempts baseDelay 0 none maxRetries

/-- Reindexing helper for the sleep lists. -/
theorem mapDelayShift (b i j : Nat) :
    (List.range j).map ((fun k => b * 2 ^ (i + k)) ∘ Nat.succ)
      = (List.range j).map fun k => b * 2 ^ (i + 1 + k) :=
  List.map_congr_left fun k _ => by
    simp only [Function.comp_apply]
    rw [show i + Nat.succ k = i + 1 + k by omega]

/-- If the first `j` attempts from index `i` fail and attempt `i + j` succeeds
(within the fuel), the loop returns that success after sleeping
`baseDelay * 2 ^ k` for each failed attempt `i + k`. -/
theorem retryGo_success (attempts : Nat → Except ε α) (b : Nat) :
    ∀ (j fuel i : Nat) (last : Option ε) (a : α), j < fuel →
      (∀ k, k < j → ∃ e, attempts (i + k) = .error e) →
      attempts (i + j) = .ok a →
      retryGo attempts b i last fuel =
        (.ok a, (List.range j).map fun k => b * 2 ^ (i + k)) := by
  intro j
  induction j with
  | zero =>
    intro fuel i last a hj _ hok
    match fuel, hj with
    | fuel + 1, _ =>
      simp only [retryGo]
      rw [show i + 0 = i from rfl] at hok
      rw [hok]
      simp
  | succ j ih =>
    intro fuel i last a hj hfail hok
    match fuel, hj with
    | fuel + 1, hj =>
      obtain ⟨e, he⟩ := hfail 0 (Nat.succ_pos j)
      rw [Nat.add_zero] at he
      simp only [retryGo, he]
      have hfuel : fuel ≠ 0 := by omega
      have hrec := ih fuel (i + 1) (some e) a (by omega)
        (fun k hk => by
          have := hfail (k + 1) (by omega)
          rwa [show i + (k + 1) = i + 1 + k by omega] at this)
        (by rwa [show i + 1 + j = i + (j + 1) by omega])
      rw [hrec]
      simp only [if_neg hfuel]
      rw [List.range_succ_eq_map]
      simp only [List.map_cons, List.map_map]
      rw [mapDelayShift]
      norm_num

/-- If every attempt from `i` for `fuel` steps fails, the loop throws the error
of the last attempt, having slept only after the first `fuel - 1` failures. -/
theorem retryGo_allFail (attempts : Nat → Except ε α) (b : Nat) :
    ∀ (fuel i : Nat) (last : Option ε), 1 ≤ fuel →
      (∀ k, k < fuel → ∃ e, attempts (i + k) = .error e) →
      ∃ e, attempts (i + (fuel - 1)) = .error e ∧
        retryGo attempts b i last fuel =
          (.error (some e), (List.range (fuel - 1)).map fun k => b * 2 ^ (i + k)) := by
  intro fuel
  induction fuel with
  | zero => intro i last h; omega
  | succ fuel ih =>
    intro i last _ hfail
    obtain ⟨e, he⟩ := hfail 0 (Nat.succ_pos fuel)
    rw [Nat.add_zero] at he
    by_cases hf : fuel = 0
    · subst hf
      refine ⟨e, by simpa using he, ?_⟩
      simp [retryGo, he]
    · obtain ⟨e', he', hrec⟩ := ih (i + 1) (some e) (by omega)
        (fun k hk => by
          have := hfail (k + 1) (by omega)
          rwa [show i + (k + 1) = i + 1 + k by omega] at this)
      refine ⟨e', ?_, ?_⟩
      · rwa [show i + (fuel + 1 - 1) = i + 1 + (fuel - 1) by omega]
      · simp only [retryGo, he, hrec, if_neg hf]
        have hstep : fuel + 1 - 1 = (fuel - 1) + 1 := by omega
        rw [hstep, List.range_succ_eq_map]
        simp only [List.map_cons, List.map_map]
        rw [mapDelayShift]
        norm_num

/-- C3: for `n ≥ 1` attempts with base delay `b`: (1) if the first `j` attempts
fail and attempt `j + 1` succeeds, `retryWithBackoff` returns that result after
waiting `b * 2 ^ (i - 1)` after each failed attempt `i` (0-based: `b * 2 ^ k`
after failed attempt index `k`); (2) if all `n` attempts fail it throws the
last observed error, with exactly `n - 1` waits (no wait after the final
attempt). -/
theorem retryWithBackoff_spec (attempts : Nat → Except ε α) (n b j : Nat)
    (hn : 1 ≤ n) :
    (∀ a : α, j < n → (∀ k, k < j → ∃ e, attempts k = .error e) →
      attempts j = .ok a →
      retryWithBackoff attempts n b =
        (.ok a, (List.range j).map fun k => b * 2 ^ k)) ∧
    ((∀ k, k < n → ∃ e, attempts k = .error e) →
      ∃ e, attempts (n - 1) = .error e ∧
        retryWithBackoff attempts n b =
          (.error (some e), (List.range (n - 1)).map fun k => b * 2 ^ k)) := by
  constructor
  · intro a hj hfail hok
    have := retryGo_success attempts b j n 0 none a hj
      (fun k hk => by simpa using hfail k hk) (by simpa using hok)
    simpa [retryWithBackoff] using this
  · intro hfail
    obtain ⟨e, he, hr⟩ := retryGo_allFail attempts b n 0 none hn
      (fun k hk => by simpa using hfail k hk)
    exact ⟨e, by simpa using he, by simpa [retryWithBackoff] using hr⟩

/-- Concrete operation for the C3 witness: fails once, then succeeds. -/
def witnessAttempts : Nat → Except String Nat
  | 0 => .error "transient"
  | _ + 1 => .ok 42

/-- Witness for C3: with 3 attempts and base delay 1000, an operation failing
once then succeeding returns 42 after a single 1000 ms wait; and with the
always-failing operation all 2 attempts fail and the last error is thrown
after one wait. -/
theorem retryWithBackoff_spec_witness :
    retryWithBackoff witnessAttempts 3 1000 = (.ok 42, [1000]) ∧
    retryWithBackoff (fun i => (.error (toString i) : Except String Nat)) 2 7 =
      (.error (some "1"), [7]) := by
  constructor
  · exact (retryWithBackoff_spec witnessAttempts 3 1000 1 (by decide)).1 42
      (by decide)
      (fun k hk => by
        interval_cases k
        exact ⟨"transient", rfl⟩)
      rfl
  · obtain ⟨e, he, hr⟩ := (retryWithBackoff_spec
      (fun i => (.error (toString i) : Except String Nat)) 2 7 0 (by decide)).2
      (fun k _ => ⟨toString k, rfl⟩)
    have h2 : (Except.error "1" : Except String Nat) = Except.error e := he
    injection h2 with h3
    rw [← h3] at hr
    simpa using hr


/-! ## Data model — models/User.js, models/UploadLog.js -/

/-- The credential bundle stored on a user (models/User.js `tokens`).
`none` models an absent / falsy field. -/
structure Tokens where
  access_token : Option String
  refresh_token : Option String
  scope : Option String
  token_type : Option String
  expiry_date : Option Int
  deriving Repr, DecidableEq

/-- models/User.js document.  `tokens = none` models a user document without a
usable `tokens` subdocument. -/
structure User where
  email : String
  channelId : String
  channelTitle : String
  tokens : Option Tokens
  isActive : Bool
  lastUploadDate : Option Int
  totalUploads : Nat
  failedUploads : Nat
  lastTokenRefresh : Option Int
  deriving Repr, DecidableEq

/-- models/UploadLog.js `status` enum. -/
inductive LogStatus
  | pending
  | downloading
  | uploading
  | success
  | failed
  deriving Repr, DecidableEq

/-- models/UploadLog.js document (the Transfer Record). -/
structure UploadLog where
  userId : String
  videoId : String
  videoTitle : String
  videoFilename : String
  status : LogStatus
  youtubeVideoId : Option String
  errorMessage : Option String
  uploadedAt : Option Int
  duration : Option Nat
  deriving Repr, DecidableEq

/-! ## Credential Lifecycle Manager — tokenService (`refreshTokenIfNeeded`,
`getValidTokens`)

The single upstream round trip `oauth2Client.refreshAccessToken()` is an oracle
`refreshOutcome : Except String (Option String × Option Int)` carrying the new
`access_token` and `expiry_date` on success. -/

/-- Environment of one `refreshTokenIfNeeded` call: the current wall clock
(`Date.now()`) and the outcome the authorization service would produce. -/
structure RefreshEnv where
  now : Int
  refreshOutcome : Except String (Option String × Option Int)
  deriving Repr

/-- The fixed message thrown by `refreshTokenIfNeeded`'s catch block. -/
def authExpiredMsg : String :=
  "User authentication token expired. Please re-authenticate by visiting /auth/login"

/-- The message thrown by `getValidTokens` when the bundle is unusable. -/
def tokensNotFoundMsg : String :=
  "User tokens not found. User needs to re-authenticate."

/-- tokenService line 14: `!expiryDate || now >= (expiryDate - fiveMinutes)`.
JS `!expiryDate` is true for an absent field and for the number 0. -/
def isTokenExpiring (expiry : Option Int) (now : Int) : Bool :=
  match expiry with
  | none => true
  | some e => e == 0 || now ≥ e - 5 * 60 * 1000

/-- Result of a `refreshTokenIfNeeded` call: the persisted user document, the
returned bundle or thrown error, and how many refresh round trips were made. -/
structure RefreshResult where
  user : User
  result : Except String Tokens
  refreshCalls : Nat
  deriving Repr

/-- tokenService `refreshTokenIfNeeded(user)` (lines 7–41), for a user whose
`tokens` subdocument is `tk`.  On a failed exchange the original error is
replaced by the fixed `authExpiredMsg` and the user document is left untouched
(the catch fires before any assignment to the document). -/
def refreshTokenIfNeeded (env : RefreshEnv) (user : User) (tk : Tokens) :
    RefreshResult :=
  if isTokenExpiring tk.expiry_date env.now then
    match env.refreshOutcome with
    | .ok (newAccess, newExpiry) =>
      let newTokens : Tokens :=
        { tk with access_token := newAccess, expiry_date := newExpiry }
      let user' : User :=
        { user with tokens := some newTokens, lastTokenRefresh := some env.now }
      { user := user', result := .ok newTokens, refreshCalls := 1 }
    | .error _ =>
      { user := user, result := .error authExpiredMsg, refreshCalls := 1 }
  else
    { user := user, result := .ok tk, refreshCalls := 0 }

/-- tokenService `getValidTokens(userId)` (lines 61–80), after the
`User.findById` resolved to `user`.  The `!user.tokens || !user.tokens.refresh_token`
guard throws `tokensNotFoundMsg` before the try block; only a throwing
`refreshTokenIfNeeded` marks the user inactive. -/
def getValidTokensFound (env : RefreshEnv) (user : User) : RefreshResult :=
  match user.tokens with
  | none => { user := user, result := .error tokensNotFoundMsg, refreshCalls := 0 }
  | some tk =>
    match tk.refresh_token with
    | none => { user := user, result := .error tokensNotFoundMsg, refreshCalls := 0 }
    | some _ =>
      let r := refreshTokenIfNeeded env user tk
      match r.result with
      | .ok tokens => { r with result := .ok tokens }
      | .error e =>
        let user' : User := { r.user with isActive := false }
        { user := user', result := .error e, refreshCalls := r.refreshCalls }

/-- tokenService `getValidTokens(userId)` including the `findById` lookup. -/
def getValidTokens (env : RefreshEnv) (found : Option User) :
    Option User × Except String Tokens :=
  match found with
  | none => (none, .error "User not found")
  | some user =>
    let r := getValidTokensFound env user
    (some r.user, r.result)

/-! ## Publish interface — youtubeService.js -/

/-- An error thrown by the YouTube API call (or by the body of `uploadVideo`):
optional HTTP-ish `code` plus a message. -/
structure ApiError where
  code : Option Nat
  message : String
  deriving Repr, DecidableEq

/-- JS `s.trim()`: strip leading and trailing whitespace. -/
def jsTrim (s : String) : String :=
  ⟨((s.toList.dropWhile Char.isWhitespace).reverse.dropWhile
      Char.isWhitespace).reverse⟩

/-- youtubeService.js `validateAndFormatTags` (lines 164–173), for the array
input shape (`config.youtube.tags` is an array): trim each tag, keep the
non-empty ones of length ≤ 30, and keep at most the first 30.  `none` models a
falsy `tags` argument. -/
def validateAndFormatTags (tags : Option (List String)) : List String :=
  match tags with
  | none => []
  | some tagArray =>
    ((tagArray.map jsTrim).filter
      fun t => decide (0 < t.length) && decide (t.length ≤ 30)).take 30

/-- youtubeService.js `validatePrivacyStatus` (lines 176–186). -/
def validatePrivacyStatus (status : String) : String :=
  let normalizedStatus := status.toLower
  if normalizedStatus == "public" || normalizedStatus == "private" ||
      normalizedStatus == "unlisted" then
    normalizedStatus
  else
    "public"

/-- YouTube max file size (videoService.js line 9 / youtubeService.js line 8). -/
def maxYoutubeFileSize : Nat := 256 * 1024 * 1024 * 1024

/-- youtubeService.js `uploadVideo` catch block (lines 94–113): translate any
error thrown inside the try body into the message rethrown to the pipeline. -/
def classifyUploadError (e : ApiError) : String :=
  if e.code == some 403 || includesSubstr e.message "quota" then
    "YouTube API quota exceeded - please try again later"
  else if e.code == some 401 || includesSubstr e.message "invalid_grant" then
    "YouTube authentication failed - user needs to re-authenticate"
  else if includesSubstr e.message "ENOENT" || includesSubstr e.message "file not found" then
    "Video file was deleted before upload completed"
  else
    "Upload failed: " ++ e.message

/-- Environment of one `uploadVideo` call: local file state at upload time, the
token-refresh environment, and the outcome of the `youtube.videos.insert` race
(on success, `response.data.id`). -/
structure UploadEnv where
  fileExists : Bool
  fileSize : Nat
  tokenEnv : RefreshEnv
  apiOutcome : Except ApiError String
  deriving Repr

/-- The value returned by a successful `uploadVideo`. -/
structure UploadSuccess where
  youtubeVideoId : String
  videoUrl : String
  deriving Repr, DecidableEq

/-- youtubeService.js `uploadVideo(user, videoData, filePath)` (lines 12–114).
Returns the persisted user document (token refresh / deactivation write
through the same DB row) and the result.  The float rendering of the
too-large message's GB figure is abstracted away. -/
def uploadVideo (env : UploadEnv) (user : User) : User × Except String UploadSuccess :=
  let body : User × Except ApiError UploadSuccess :=
    if !env.fileExists then
      (user, .error ⟨none, "Video file not found"⟩)
    else if decide (env.fileSize > maxYoutubeFileSize) then
      (user, .error ⟨none, "Video file too large"⟩)
    else
      let r := getValidTokensFound env.tokenEnv user
      match r.result with
      | .error msg => (r.user, .error ⟨none, msg⟩)
      | .ok _tokens =>
        match env.apiOutcome with
        | .ok vid =>
          (r.user, .ok ⟨vid, "https://www.youtube.com/watch?v=" ++ vid⟩)
        | .error e => (r.user, .error e)
  (body.1, body.2.mapError classifyUploadError)

/-! ## Fetch/download interface — videoService.js -/

/-- videoService.js `downloadVideo` absolute ceiling (line 118): 15 minutes. -/
def downloadTimeoutMs : Nat := 900000

/-- The signal that settles the `downloadVideo` promise (lines 94–122): the
writer's `finish` event, a writer or stream `error` event, or the absolute
timeout firing. -/
inductive DlSignal
  | finish
  | writeError (msg : String)
  | streamError (msg : String)
  | timeoutFired
  deriving Repr, DecidableEq

/-- Local-storage state of the download: whether the (partial) file is on disk. -/
structure DlState where
  fileOnDisk : Bool
  deriving Repr, DecidableEq

/-- The handler table of `downloadVideo`'s promise (lines 94–122): `finish`
resolves with the path and keeps the file; each error handler and the timeout
handler remove the file (`fs.removeSync(filePath)`) and reject. -/
def settleDownload (filePath : String) (ev : DlSignal) (s : DlState) :
    DlState × Except String String :=
  match ev with
  | .finish => (s, .ok filePath)
  | .writeError m => ({ s with fileOnDisk := false }, .error m)
  | .streamError m => ({ s with fileOnDisk := false }, .error m)
  | .timeoutFired => ({ s with fileOnDisk := false }, .error "Download timeout - took too long")

/-- Timing model of a download run in which neither error event fires:
`finishTime` is the instant (ms from the start of the download) at which the
writer would emit `finish`, or `none` if it never does.  The promise settles
with `finish` if that happens strictly before the 15-minute ceiling, otherwise
the timeout fires first.  The partial file is on disk until a cleanup handler
removes it. -/
def downloadVideoSettle (filePath : String) (finishTime : Option Nat) :
    DlState × Except String String :=
  match finishTime with
  | some t =>
    if t < downloadTimeoutMs then settleDownload filePath .finish ⟨true⟩
    else settleDownload filePath .timeoutFired ⟨true⟩
  | none => settleDownload filePath .timeoutFired ⟨true⟩

/-! ## helpers.js `formatDuration` (lines 43–56) -/

/-- helpers.js `formatDuration(seconds)`.  JS `!seconds || seconds < 0` for a
`Nat` input is `seconds = 0`. -/
def formatDuration (seconds : Nat) : String :=
  if seconds = 0 then "0s"
  else
    let hours := seconds / 3600
    let minutes := seconds % 3600 / 60
    let secs := seconds % 60
    let parts : List String :=
      (if hours > 0 then [toString hours ++ "h"] else []) ++
      (if minutes > 0 then [toString minutes ++ "m"] else [])
    let parts := parts ++ (if secs > 0 || parts.isEmpty then [toString secs ++ "s"] else [])
    String.intercalate " " parts

/-! ## Pipeline Runner — uploadJob.js `processUserUpload` (lines 126–250) -/

/-- The resource descriptor returned by videoService `getNextVideo`. -/
structure VideoData where
  id : String
  title : String
  filename : String
  deriving Repr, DecidableEq

/-- Outcome of the `getNextVideo` call for one account: null (no pending
video), a video descriptor, or a thrown error. -/
inductive FetchOutcome
  | noVideo
  | video (v : VideoData)
  | fetchError (msg : String)
  deriving Repr, DecidableEq

/-- An entry of `results.successful` (uploadJob.js lines 194–199). -/
structure SuccessEntry where
  userEmail : String
  videoTitle : String
  videoUrl : String
  duration : String
  deriving Repr, DecidableEq

/-- An entry of `results.failed` (uploadJob.js lines 244–248). -/
structure FailureEntry where
  userEmail : String
  videoTitle : String
  error : String
  deriving Repr, DecidableEq

/-- The in-memory cycle result (uploadJob.js lines 55–61). -/
structure Results where
  successful : List SuccessEntry
  failed : List FailureEntry
  totalUsers : Nat
  noVideos : Bool
  dbError : Bool
  deriving Repr, DecidableEq

/-- Outbound messages the job can emit (emailService calls). -/
inductive Notification
  | reAuthRequired (email channelTitle : String)
  | errorNotification (email videoTitle error : String)
  | uploadReport (results : Results)
  deriving Repr, DecidableEq

/-- Environment of one `processUserUpload` call: the outcome each external
step would produce if reached. -/
structure UserEnv where
  fetch : FetchOutcome
  download : Except String Unit
  validate : Except String Unit
  uploadEnv : UploadEnv
  uploadDuration : Nat
  now : Int
  deriving Repr

/-- Everything one `processUserUpload` call produced: the persisted user
document, the mutated cycle result, the Transfer Record (if one was created),
and the notifications sent. -/
structure UserRunResult where
  user : User
  results : Results
  uploadLog : Option UploadLog
  notifications : List Notification
  deriving Repr

/-- uploadJob.js line 231: the error-text test that routes to the
re-authentication notice instead of the generic error notice. -/
def isAuthRelatedError (msg : String) : Bool :=
  includesSubstr msg "authentication" || includesSubstr msg "re-authenticate"

/-- The catch block of `processUserUpload` (uploadJob.js lines 203–249):
mark the Transfer Record failed, bump the user's failure counter, send the
notification picked by `isAuthRelatedError`, and append one failure entry. -/
def handleUploadFailure (user : User) (results : Results) (videoTitle : Option String)
    (uploadLog : Option UploadLog) (errMsg : String) : UserRunResult :=
  let log' := uploadLog.map fun l => { l with status := LogStatus.failed, errorMessage := some errMsg }
  let user' := { user with failedUploads := user.failedUploads + 1 }
  let notif :=
    if isAuthRelatedError errMsg then
      Notification.reAuthRequired user.email user.channelTitle
    else
      Notification.errorNotification user.email (videoTitle.getD "Unknown") errMsg
  let entry : FailureEntry := ⟨user.email, videoTitle.getD "Unknown", errMsg⟩
  { user := user', results := { results with failed := results.failed ++ [entry] },
    uploadLog := log', notifications := [notif] }

/-- uploadJob.js `processUserUpload(user, results)` (lines 126–250).  The
user's stable `channelId` stands in for the Mongo `_id` as the Transfer
Record's foreign key. -/
def processUserUpload (env : UserEnv) (user : User) (results : Results) : UserRunResult :=
  match env.fetch with
  | .fetchError msg => handleUploadFailure user results none none msg
  | .noVideo =>
    { user := user, results := { results with noVideos := true },
      uploadLog := none, notifications := [] }
  | .video v =>
    let log1 : UploadLog :=
      { userId := user.channelId, videoId := v.id, videoTitle := v.title,
        videoFilename := v.filename, status := LogStatus.downloading,
        youtubeVideoId := none, errorMessage := none, uploadedAt := none,
        duration := none }
    match env.download with
    | .error msg => handleUploadFailure user results (some v.title) (some log1) msg
    | .ok _ =>
      match env.validate with
      | .error vmsg =>
        handleUploadFailure user results (some v.title) (some log1)
          ("Video file validation failed: " ++ vmsg)
      | .ok _ =>
        let log2 := { log1 with status := LogStatus.uploading }
        let up := uploadVideo env.uploadEnv user
        match up.2 with
        | .error msg => handleUploadFailure up.1 results (some v.title) (some log2) msg
        | .ok s =>
          let log3 := { log2 with status := LogStatus.success, youtubeVideoId := some s.youtubeVideoId, uploadedAt := some env.now, duration := some env.uploadDuration }
          let user2 := { up.1 with lastUploadDate := some env.now, totalUploads := up.1.totalUploads + 1 }
          let entry : SuccessEntry :=
            ⟨user.email, v.title, s.videoUrl, formatDuration env.uploadDuration⟩
          { user := user2,
            results := { results with successful := results.successful ++ [entry] },
            uploadLog := some log3, notifications := [] }

/-! ## Cycle Scheduler — uploadJob.js `processUploads` (lines 34–123) -/

/-- The UploadJob instance's mutable fields (constructor, lines 13–17). -/
structure JobState where
  isRunning : Bool
  skippedCycles : Nat
  deriving Repr, DecidableEq

/-- Environment of one cycle: DB connectivity and the selected active users
(already sorted ascending by `lastUploadDate` and limited to 100 by the
query), each with the environment its pipeline run would see. -/
structure CycleEnv where
  dbConnected : Bool
  users : List (User × UserEnv)
  deriving Repr

/-- Everything one `processUploads` trigger produced. -/
structure CycleOutcome where
  state : JobState
  results : Option Results
  users : List User
  logs : List UploadLog
  notifications : List Notification
  deriving Repr

/-- The per-user loop (uploadJob.js lines 90–101), threading `results`. -/
def runUsers : List (User × UserEnv) → Results →
    List User × Results × List UploadLog × List Notification
  | [], results => ([], results, [], [])
  | (u, e) :: rest, results =>
    let r := processUserUpload e u results
    let rec' := runUsers rest r.results
    (r.user :: rec'.1, rec'.2.1, r.uploadLog.toList ++ rec'.2.2.1,
      r.notifications ++ rec'.2.2.2)

/-- The fresh `results` object built at cycle entry (lines 55–61). -/
def emptyResults : Results :=
  { successful := [], failed := [], totalUsers := 0, noVideos := false, dbError := false }

/-- uploadJob.js `processUploads()` (lines 34–123).  A trigger arriving while
`isRunning` is the skip path (lines 35–44); otherwise the cycle body runs with
the `finally` always clearing `isRunning`. -/
def processUploads (env : CycleEnv) (s : JobState) : CycleOutcome :=
  if s.isRunning then
    let sk := s.skippedCycles + 1
    { state := { s with skippedCycles := if sk ≥ 3 then 0 else sk },
      results := none, users := [], logs := [], notifications := [] }
  else
    if !env.dbConnected then
      let res := { emptyResults with dbError := true }
      { state := { isRunning := false, skippedCycles := 0 }, results := some res,
        users := [], logs := [], notifications := [Notification.uploadReport res] }
    else
      let res0 := { emptyResults with totalUsers := env.users.length }
      if env.users.isEmpty then
        { state := { isRunning := false, skippedCycles := 0 }, results := some res0,
          users := [], logs := [], notifications := [Notification.uploadReport res0] }
      else
        let run := runUsers env.users res0
        { state := { isRunning := false, skippedCycles := 0 }, results := some run.2.1,
          users := run.1, logs := run.2.2.1,
          notifications := run.2.2.2 ++ [Notification.uploadReport run.2.1] }

/-! ## Claim theorems: Credential Lifecycle Manager -/

/-- C8: a credential is treated as expiring exactly when no expiry instant is
recorded or the wall clock is within the 5-minute guard window of the recorded
expiry; with the recorded expiry in the past, `refreshTokenIfNeeded` performs
exactly one refresh round trip; when not expiring it returns the stored bundle
unchanged, with no refresh call and no write to the user document. -/
theorem refreshTokenIfNeeded_spec (env : RefreshEnv) (user : User) (tk : Tokens)
    (hnow : 0 ≤ env.now) :
    (isTokenExpiring tk.expiry_date env.now = true ↔
      tk.expiry_date = none ∨
        ∃ e, tk.expiry_date = some e ∧ env.now ≥ e - 5 * 60 * 1000) ∧
    ((∃ e, tk.expiry_date = some e ∧ e ≤ env.now) →
      (refreshTokenIfNeeded env user tk).refreshCalls = 1) ∧
    (isTokenExpiring tk.expiry_date env.now = false →
      refreshTokenIfNeeded env user tk =
        { user := user, result := .ok tk, refreshCalls := 0 }) := by
  refine ⟨?_, ?_, ?_⟩
  · cases h : tk.expiry_date with
    | none => simp [isTokenExpiring, h]
    | some e =>
      simp only [isTokenExpiring, Bool.or_eq_true, beq_iff_eq, decide_eq_true_eq]
      constructor
      · rintro (rfl | hge)
        · exact Or.inr ⟨0, rfl, by omega⟩
        · exact Or.inr ⟨e, rfl, hge⟩
      · rintro (hc | ⟨e', he', hge⟩)
        · exact Option.noConfusion hc
        · injection he' with hee
          subst hee
          by_cases h0 : e = 0
          · exact Or.inl h0
          · exact Or.inr hge
  · rintro ⟨e, he, hle⟩
    have hexp : isTokenExpiring tk.expiry_date env.now = true := by
      rw [he]
      simp only [isTokenExpiring, Bool.or_eq_true, beq_iff_eq, decide_eq_true_eq]
      right
      omega
    simp only [refreshTokenIfNeeded, hexp, if_true]
    cases env.refreshOutcome with
    | ok p => cases p; rfl
    | error e => rfl
  · intro hnot
    simp [refreshTokenIfNeeded, hnot]

/-- Stored bundle used by the concrete witnesses: expiry at 1000000 ms. -/
def wTokens : Tokens := ⟨some "old", some "rt", none, none, some 1000000⟩

/-- Active user used by the concrete witnesses. -/
def wUser : User :=
  { email := "a@b.c", channelId := "ch", channelTitle := "T",
    tokens := some wTokens, isActive := true, lastUploadDate := none,
    totalUploads := 0, failedUploads := 0, lastTokenRefresh := none }

/-- The same user with no stored bundle. -/
def wUserNoTokens : User := { wUser with tokens := none }

/-- Witness for C8: at clock 5000000 ms the recorded expiry 1000000 ms is in
the past and exactly one refresh call happens; at clock 100000 ms the bundle
is returned unchanged with no call and no write. -/
theorem refreshTokenIfNeeded_spec_witness :
    (refreshTokenIfNeeded ⟨5000000, .ok (some "new", some 9000000)⟩
      wUser wTokens).refreshCalls = 1 ∧
    refreshTokenIfNeeded ⟨100000, .ok (some "new", some 9000000)⟩ wUser wTokens =
      { user := wUser, result := .ok wTokens, refreshCalls := 0 } := by
  constructor
  · exact (refreshTokenIfNeeded_spec ⟨5000000, .ok (some "new", some 9000000)⟩
      wUser wTokens (by norm_num)).2.1 ⟨1000000, rfl, by norm_num⟩
  · exact (refreshTokenIfNeeded_spec ⟨100000, .ok (some "new", some 9000000)⟩
      wUser wTokens (by norm_num)).2.2 (by decide)

/-- C10: with an absent bundle or an absent refresh token, `getValidTokens`
fails with the tokens-not-found error, makes no refresh call, and leaves the
user document — in particular `isActive` — untouched, so an active account
stays active and is selected again next cycle. -/
theorem getValidTokens_missingBundle (env : RefreshEnv) (user : User)
    (h : user.tokens = none ∨ ∃ tk, user.tokens = some tk ∧ tk.refresh_token = none) :
    getValidTokensFound env user =
      { user := user, result := .error tokensNotFoundMsg, refreshCalls := 0 } ∧
    (getValidTokensFound env user).user.isActive = user.isActive := by
  have hmain : getValidTokensFound env user =
      { user := user, result := .error tokensNotFoundMsg, refreshCalls := 0 } := by
    rcases h with h | ⟨tk, htk, hrt⟩
    · simp [getValidTokensFound, h]
    · simp [getValidTokensFound, htk, hrt]
  exact ⟨hmain, by rw [hmain]⟩

/-- Witness for C10: an active user with no stored bundle keeps `isActive`
and gets the tokens-not-found error. -/
theorem getValidTokens_missingBundle_witness :
    getValidTokensFound ⟨0, .ok (none, none)⟩ wUserNoTokens =
      { user := wUserNoTokens, result := .error tokensNotFoundMsg,
        refreshCalls := 0 } :=
  (getValidTokens_missingBundle ⟨0, .ok (none, none)⟩ wUserNoTokens (Or.inl rfl)).1

/-- The catch block of `uploadVideo` wraps the token-service message as a
generic upload failure, keeping its text. -/
theorem classify_authExpired :
    classifyUploadError ⟨none, authExpiredMsg⟩ = "Upload failed: " ++ authExpiredMsg := by
  decide

/-- The wrapped message still matches the pipeline's authentication test
(it contains "authentication"). -/
theorem isAuthRelatedError_wrapped_authExpired :
    isAuthRelatedError ("Upload failed: " ++ authExpiredMsg) = true := by
  decide

/-- C2: when the stored bundle is usable but expiring and the refresh exchange
fails, `getValidTokens` persists `isActive = false` and throws the fixed
authentication-expired message; a pipeline run that reaches the publish step
under that token environment sends exactly the re-authorization notice to the
account's own address, not the generic error notice. -/
theorem refreshFailure_deactivates_and_reauths
    (env : RefreshEnv) (user : User) (tk : Tokens) (rt : String) (emsg : String)
    (htok : user.tokens = some tk) (hrt : tk.refresh_token = some rt)
    (hexp : isTokenExpiring tk.expiry_date env.now = true)
    (hfail : env.refreshOutcome = .error emsg) :
    (getValidTokensFound env user).user.isActive = false ∧
    (getValidTokensFound env user).result = .error authExpiredMsg ∧
    ∀ (uenv : UserEnv) (results : Results) (v : VideoData),
      uenv.fetch = .video v → uenv.download = .ok () → uenv.validate = .ok () →
      uenv.uploadEnv.fileExists = true →
      uenv.uploadEnv.fileSize ≤ maxYoutubeFileSize →
      uenv.uploadEnv.tokenEnv = env →
      (processUserUpload uenv user results).notifications =
        [Notification.reAuthRequired user.email user.channelTitle] := by
  have hg : getValidTokensFound env user =
      { user := { user with isActive := false }, result := .error authExpiredMsg,
        refreshCalls := 1 } := by
    simp only [getValidTokensFound, htok, hrt, refreshTokenIfNeeded, hexp, if_true, hfail]
  refine ⟨by rw [hg], by rw [hg], ?_⟩
  intro uenv results v hfetch hdl hval hex hsize htenv
  have hup : uploadVideo uenv.uploadEnv user =
      ({ user with isActive := false }, .error ("Upload failed: " ++ authExpiredMsg)) := by
    have hsz : decide (uenv.uploadEnv.fileSize > maxYoutubeFileSize) = false := by
      simp only [decide_eq_false_iff_not]
      omega
    simp only [uploadVideo, hex, Bool.not_true, if_false, hsz, htenv, hg,
      Bool.false_eq_true, Except.mapError, classify_authExpired]
  rcases uenv with ⟨fetch, download, validate, uploadEnv, dur, now⟩
  cases hfetch
  cases hdl
  cases hval
  simp only [processUserUpload, hup, handleUploadFailure,
    isAuthRelatedError_wrapped_authExpired, if_true]

/-- Upload environment used by the C2 witness: file present and small, token
exchange fails. -/
def wAuthFailUploadEnv : UploadEnv :=
  { fileExists := true, fileSize := 4096,
    tokenEnv := ⟨5000000, .error "invalid_grant"⟩, apiOutcome := .ok "ytid" }

/-- Pipeline environment used by the C2 witness: a video is available, the
download and validation succeed, but the token exchange fails. -/
def wAuthFailEnv : UserEnv :=
  { fetch := .video ⟨"v1", "Title", "f.mp4"⟩, download := .ok (),
    validate := .ok (), uploadEnv := wAuthFailUploadEnv,
    uploadDuration := 3, now := 5000000 }

/-- Witness for C2: the concrete expired user with a failing exchange comes
out inactive and the full pipeline run emits exactly the re-authentication
notice. -/
theorem refreshFailure_deactivates_and_reauths_witness :
    (getValidTokensFound ⟨5000000, .error "invalid_grant"⟩ wUser).user.isActive
      = false ∧
    (processUserUpload wAuthFailEnv wUser emptyResults).notifications =
      [Notification.reAuthRequired "a@b.c" "T"] := by
  have h := refreshFailure_deactivates_and_reauths
    ⟨5000000, .error "invalid_grant"⟩ wUser wTokens "rt" "invalid_grant"
    rfl rfl (by decide) rfl
  exact ⟨h.1, h.2.2 wAuthFailEnv emptyResults ⟨"v1", "Title", "f.mp4"⟩
    rfl rfl rfl rfl (by decide) rfl⟩

/-! ## Claim theorems: publish metadata and download timeout -/

/-- C7 counterexample: `validateAndFormatTags` does not deduplicate — the tag
list `["a", "a"]` comes back with the duplicate intact. -/
theorem validateAndFormatTags_keepsDuplicates :
    validateAndFormatTags (some ["a", "a"]) = ["a", "a"] ∧
    ¬ (validateAndFormatTags (some ["a", "a"])).Nodup := by
  constructor
  · rfl
  · decide

/-- C7 amended: the returned tags are trimmed (each is drawn, in order, from
the trimmed input), individually non-empty and of length at most 30, and at
most 30 tags are returned; duplicates are not removed. -/
theorem validateAndFormatTags_spec (tags : Option (List String)) :
    (validateAndFormatTags tags).length ≤ 30 ∧
    (∀ t ∈ validateAndFormatTags tags, 0 < t.length ∧ t.length ≤ 30) ∧
    ∀ l, tags = some l → (validateAndFormatTags tags).Sublist (l.map jsTrim) := by
  cases tags with
  | none =>
    refine ⟨by simp [validateAndFormatTags], by simp [validateAndFormatTags], ?_⟩
    intro l hl
    cases hl
  | some l =>
    refine ⟨?_, ?_, ?_⟩
    · simp only [validateAndFormatTags, List.length_take]
      exact Nat.min_le_left _ _
    · intro t ht
      simp only [validateAndFormatTags] at ht
      have ht2 := (List.take_sublist _ _).subset ht
      rw [List.mem_filter] at ht2
      have h3 := ht2.2
      simp only [Bool.and_eq_true, decide_eq_true_eq] at h3
      exact h3
    · intro l' hl'
      injection hl' with hll
      subst hll
      simp only [validateAndFormatTags]
      exact (List.take_sublist _ _).trans (List.filter_sublist _)

/-- Witness for C7 amended at the repository's default tag list. -/
theorem validateAndFormatTags_spec_witness :
    validateAndFormatTags (some ["shorts", "funny", "comedy", "movies"]) =
      ["shorts", "funny", "comedy", "movies"] ∧
    (0 < ("shorts" : String).length ∧ ("shorts" : String).length ≤ 30) ∧
    (validateAndFormatTags (some ["shorts", "funny", "comedy", "movies"])).Sublist
      (["shorts", "funny", "comedy", "movies"].map jsTrim) := by
  refine ⟨rfl, ?_, ?_⟩
  · exact (validateAndFormatTags_spec (some ["shorts", "funny", "comedy", "movies"])).2.1
      "shorts" (by decide)
  · exact (validateAndFormatTags_spec (some ["shorts", "funny", "comedy", "movies"])).2.2
      ["shorts", "funny", "comedy", "movies"] rfl

/-- C9: a download whose completion signal does not arrive before the
15-minute ceiling settles with the timeout error and the partial local file
removed. -/
theorem download_timeout_cleanup (fp : String) (finishTime : Option Nat)
    (h : ∀ t, finishTime = some t → downloadTimeoutMs ≤ t) :
    downloadVideoSettle fp finishTime =
      (⟨false⟩, .error "Download timeout - took too long") := by
  cases finishTime with
  | none => rfl
  | some t =>
    have hle := h t rfl
    simp only [downloadVideoSettle, settleDownload]
    rw [if_neg (by omega)]

/-- Witness for C9: a download that never signals completion. -/
theorem download_timeout_cleanup_witness :
    downloadVideoSettle "downloads/v1_f.mp4" none =
      (⟨false⟩, .error "Download timeout - took too long") :=
  download_timeout_cleanup "downloads/v1_f.mp4" none (fun t ht => by cases ht)

/-! ## Claim theorems: Cycle Scheduler and Pipeline Runner -/

/-- Tells the end-of-cycle report apart from the per-account notices. -/
def isReportNotification : Notification → Bool
  | .uploadReport _ => true
  | _ => false

/-- Whether a pipeline run counts as attempted (it did not short-circuit on
"no resource available"). -/
def isAttempted (e : UserEnv) : Bool :=
  match e.fetch with
  | .noVideo => false
  | _ => true

/-- The failure path never emits the cycle report. -/
theorem handleUploadFailure_no_report (user : User) (results : Results)
    (vt : Option String) (log : Option UploadLog) (msg : String) :
    ((handleUploadFailure user results vt log msg).notifications.filter
      isReportNotification) = [] := by
  simp only [handleUploadFailure]
  cases hc : isAuthRelatedError msg <;> simp [hc, isReportNotification]

/-- A single pipeline run never emits the cycle report. -/
theorem processUserUpload_no_report (env : UserEnv) (user : User) (results : Results) :
    ((processUserUpload env user results).notifications.filter
      isReportNotification) = [] := by
  rcases env with ⟨fetch, download, validate, uploadEnv, dur, now⟩
  cases fetch with
  | fetchError m => exact handleUploadFailure_no_report _ _ _ _ _
  | noVideo => rfl
  | video v =>
    cases download with
    | error m => exact handleUploadFailure_no_report _ _ _ _ _
    | ok un =>
      cases un
      cases validate with
      | error m => exact handleUploadFailure_no_report _ _ _ _ _
      | ok un2 =>
        cases un2
        simp only [processUserUpload]
        cases hup : (uploadVideo uploadEnv user).2 with
        | error m =>
          simp only [hup]
          exact handleUploadFailure_no_report _ _ _ _ _
        | ok sres =>
          simp only [hup]
          rfl

/-- The per-user loop never emits the cycle report. -/
theorem runUsers_no_report (l : List (User × UserEnv)) (results : Results) :
    ((runUsers l results).2.2.2.filter isReportNotification) = [] := by
  induction l generalizing results with
  | nil => rfl
  | cons p rest ih =>
    obtain ⟨u, e⟩ := p
    simp only [runUsers, List.filter_append, processUserUpload_no_report, ih,
      List.append_nil]

/-- Every cycle that actually starts emits exactly one cycle report,
regardless of outcome. -/
theorem processUploads_one_report (cenv : CycleEnv) (s : JobState)
    (h : s.isRunning = false) :
    ((processUploads cenv s).notifications.filter isReportNotification).length = 1 := by
  obtain ⟨r, k⟩ := s
  cases h
  cases hdb : cenv.dbConnected with
  | false => simp [processUploads, hdb, isReportNotification]
  | true =>
    cases hemp : cenv.users.isEmpty with
    | true => simp [processUploads, hdb, hemp, isReportNotification]
    | false =>
      simp [processUploads, hdb, hemp, List.filter_append, runUsers_no_report,
        isReportNotification]

/-- C5: a trigger while a cycle is running changes nothing except the skip
counter, which increments and wraps to zero on the third consecutive skip;
a cycle that actually starts resets the skip counter to zero and always ends
with the running flag cleared, whatever the outcome. -/
theorem cycle_guard_spec (env : CycleEnv) (s : JobState) :
    (s.isRunning = true →
      processUploads env s =
        { state := ⟨true, if s.skippedCycles + 1 ≥ 3 then 0 else s.skippedCycles + 1⟩,
          results := none, users := [], logs := [], notifications := [] }) ∧
    (s.isRunning = false →
      (processUploads env s).state = { isRunning := false, skippedCycles := 0 }) := by
  obtain ⟨r, k⟩ := s
  constructor
  · intro h
    cases h
    simp [processUploads]
  · intro h
    cases h
    cases hdb : env.dbConnected with
    | false => simp [processUploads, hdb]
    | true =>
      cases hemp : env.users.isEmpty with
      | true => simp [processUploads, hdb, hemp]
      | false => simp [processUploads, hdb, hemp]

/-- Witness for C5: a trigger on a busy scheduler with 2 prior skips wraps the
counter to 0 and returns nothing else; a trigger on an idle scheduler with a
stale skip count ends idle with the counter reset. -/
theorem cycle_guard_spec_witness :
    processUploads ⟨true, []⟩ ⟨true, 2⟩ =
      { state := ⟨true, 0⟩, results := none, users := [], logs := [],
        notifications := [] } ∧
    (processUploads ⟨true, []⟩ ⟨false, 5⟩).state = ⟨false, 0⟩ := by
  constructor
  · have h := (cycle_guard_spec ⟨true, []⟩ ⟨true, 2⟩).1 rfl
    simpa using h
  · exact (cycle_guard_spec ⟨true, []⟩ ⟨false, 5⟩).2 rfl

/-- C6: on "no resource available" the pipeline run only sets the `noVideos`
flag — same user document, no Transfer Record, no notification — and any
cycle that starts still sends exactly one report. -/
theorem noVideo_frame (env : UserEnv) (user : User) (results : Results)
    (h : env.fetch = .noVideo) :
    processUserUpload env user results =
      { user := user, results := { results with noVideos := true },
        uploadLog := none, notifications := [] } ∧
    ∀ (cenv : CycleEnv) (s : JobState), s.isRunning = false →
      ((processUploads cenv s).notifications.filter isReportNotification).length = 1 := by
  constructor
  · rcases env with ⟨fetch, download, validate, uploadEnv, dur, now⟩
    cases h
    rfl
  · intro cenv s hs
    exact processUploads_one_report cenv s hs

/-- Pipeline environment used by the C6 witness: no video is available. -/
def wNoVideoEnv : UserEnv :=
  { fetch := .noVideo, download := .ok (), validate := .ok (),
    uploadEnv := wAuthFailUploadEnv, uploadDuration := 0, now := 0 }

/-- Witness for C6 at a concrete no-video environment and a started cycle. -/
theorem noVideo_frame_witness :
    processUserUpload wNoVideoEnv wUser emptyResults =
      { user := wUser, results := { emptyResults with noVideos := true },
        uploadLog := none, notifications := [] } ∧
    ((processUploads ⟨true, []⟩ ⟨false, 0⟩).notifications.filter
      isReportNotification).length = 1 := by
  have h := noVideo_frame wNoVideoEnv wUser emptyResults rfl
  exact ⟨h.1, h.2 ⟨true, []⟩ ⟨false, 0⟩ rfl⟩

/-- The catch block appends exactly one failure entry and leaves the success
list alone. -/
theorem handleUploadFailure_results (user : User) (results : Results)
    (vt : Option String) (log : Option UploadLog) (msg : String) :
    (handleUploadFailure user results vt log msg).results =
      { results with failed :=
          results.failed ++ [⟨user.email, vt.getD "Unknown", msg⟩] } := rfl

/-- One pipeline run appends one entry to exactly one of the two lists when
the account was attempted, and to neither when it short-circuited; it creates
at most one Transfer Record either way. -/
theorem processUserUpload_oneEntry (e : UserEnv) (u : User) (r : Results) :
    (processUserUpload e u r).uploadLog.toList.length ≤ 1 ∧
    (isAttempted e = false →
      (processUserUpload e u r).results.successful = r.successful ∧
      (processUserUpload e u r).results.failed = r.failed) ∧
    (isAttempted e = true →
      ((∃ x, (processUserUpload e u r).results.successful = r.successful ++ [x]) ∧
        (processUserUpload e u r).results.failed = r.failed) ∨
      ((∃ x, (processUserUpload e u r).results.failed = r.failed ++ [x]) ∧
        (processUserUpload e u r).results.successful = r.successful)) := by
  have hlog : ∀ o : Option UploadLog, o.toList.length ≤ 1 := by
    intro o
    cases o <;> simp
  rcases e with ⟨fetch, download, validate, uploadEnv, dur, now⟩
  cases fetch with
  | noVideo =>
    refine ⟨hlog _, ?_, ?_⟩
    · intro _
      exact ⟨rfl, rfl⟩
    · intro hA
      cases hA
  | fetchError m =>
    refine ⟨hlog _, ?_, ?_⟩
    · intro hA
      cases hA
    · intro _
      exact Or.inr ⟨⟨_, rfl⟩, rfl⟩
  | video v =>
    refine ⟨hlog _, ?_, ?_⟩
    · intro hA
      cases hA
    · intro _
      cases download with
      | error m => exact Or.inr ⟨⟨_, rfl⟩, rfl⟩
      | ok un =>
        cases un
        cases validate with
        | error m => exact Or.inr ⟨⟨_, rfl⟩, rfl⟩
        | ok un2 =>
          cases un2
          simp only [processUserUpload]
          cases hup : (uploadVideo uploadEnv u).2 with
          | error m => exact Or.inr ⟨⟨_, rfl⟩, rfl⟩
          | ok sres => exact Or.inl ⟨⟨_, rfl⟩, rfl⟩

/-- Entry counting for one pipeline run. -/
theorem processUserUpload_counts (e : UserEnv) (u : User) (r : Results) :
    (processUserUpload e u r).results.successful.length +
      (processUserUpload e u r).results.failed.length =
      r.successful.length + r.failed.length + (if isAttempted e then 1 else 0) := by
  have h := processUserUpload_oneEntry e u r
  cases hA : isAttempted e with
  | false =>
    obtain ⟨hs, hf⟩ := h.2.1 hA
    simp [hs, hf]
  | true =>
    rcases h.2.2 hA with ⟨⟨x, hs⟩, hf⟩ | ⟨⟨x, hf⟩, hs⟩ <;>
      simp [hs, hf] <;> omega

/-- Entry counting for the per-user loop. -/
theorem runUsers_counts (l : List (User × UserEnv)) (results : Results) :
    (runUsers l results).2.1.successful.length +
      (runUsers l results).2.1.failed.length =
      results.successful.length + results.failed.length +
        (l.filter fun p => isAttempted p.2).length := by
  induction l generalizing results with
  | nil => simp [runUsers]
  | cons p rest ih =>
    obtain ⟨u, e⟩ := p
    simp only [runUsers]
    rw [ih]
    have hc := processUserUpload_counts e u results
    cases hA : isAttempted e <;>
      simp only [hA, if_true, if_false, List.filter_cons] at hc ⊢ <;>
      simp [hA] at hc ⊢ <;>
      omega

/-- At most one Transfer Record per selected account over the loop. -/
theorem runUsers_logs_le (l : List (User × UserEnv)) (results : Results) :
    (runUsers l results).2.2.1.length ≤ l.length := by
  induction l generalizing results with
  | nil => simp [runUsers]
  | cons p rest ih =>
    obtain ⟨u, e⟩ := p
    simp only [runUsers, List.length_append, List.length_cons]
    have h1 : (processUserUpload e u results).uploadLog.toList.length ≤ 1 := by
      cases (processUserUpload e u results).uploadLog <;> simp
    have h2 := ih (processUserUpload e u results).results
    omega

/-- C4: in every cycle that runs against a reachable store, success entries
plus failure entries equal the number of attempted accounts (no-video
short-circuits contribute nothing), at most one Transfer Record exists per
selected account, and each attempted run appends one entry to exactly one
list. -/
theorem cycle_entry_count (env : CycleEnv) (s : JobState) (res : Results)
    (hrun : s.isRunning = false) (hdb : env.dbConnected = true)
    (hres : (processUploads env s).results = some res) :
    res.successful.length + res.failed.length =
      (env.users.filter fun p => isAttempted p.2).length ∧
    (processUploads env s).logs.length ≤ env.users.length ∧
    ∀ (e : UserEnv) (u : User) (r : Results),
      (processUserUpload e u r).uploadLog.toList.length ≤ 1 ∧
      (isAttempted e = true →
        ((∃ x, (processUserUpload e u r).results.successful = r.successful ++ [x]) ∧
          (processUserUpload e u r).results.failed = r.failed) ∨
        ((∃ x, (processUserUpload e u r).results.failed = r.failed ++ [x]) ∧
          (processUserUpload e u r).results.successful = r.successful)) := by
  obtain ⟨rs, k⟩ := s
  cases hrun
  refine ⟨?_, ?_, ?_⟩
  · cases hemp : env.users.isEmpty with
    | true =>
      have husers : env.users = [] := List.isEmpty_iff.mp hemp
      simp only [processUploads, hdb, hemp] at hres
      simp only [husers, List.filter_nil, List.length_nil]
      simp at hres
      rw [← hres]
      simp [emptyResults]
    | false =>
      simp only [processUploads, hdb, hemp] at hres
      simp at hres
      rw [← hres]
      have hcount := runUsers_counts env.users
        { emptyResults with totalUsers := env.users.length }
      simpa [emptyResults] using hcount
  · cases hemp : env.users.isEmpty with
    | true => simp [processUploads, hdb, hemp]
    | false =>
      simp only [processUploads, hdb, hemp]
      simp only [Bool.not_true, if_false]
      exact runUsers_logs_le _ _
  · intro e u r
    exact ⟨(processUserUpload_oneEntry e u r).1, (processUserUpload_oneEntry e u r).2.2⟩

/-- Cycle used by the C4 witness: storage reachable, one selected user whose
fetch finds no video. -/
def wCycleEnv : CycleEnv := { dbConnected := true, users := [(wUser, wNoVideoEnv)] }

/-- The cycle result the C4 witness cycle produces. -/
def wCycleRes : Results :=
  { successful := [], failed := [], totalUsers := 1, noVideos := true,
    dbError := false }

/-- Witness for C4: the one-account no-video cycle has 0 + 0 entries for 0
attempted accounts, and at most one Transfer Record per selected account. -/
theorem cycle_entry_count_witness :
    wCycleRes.successful.length + wCycleRes.failed.length =
      (wCycleEnv.users.filter fun p => isAttempted p.2).length ∧
    (processUploads wCycleEnv ⟨false, 0⟩).logs.length ≤ wCycleEnv.users.length := by
  have h := cycle_entry_count wCycleEnv ⟨false, 0⟩ wCycleRes rfl rfl rfl
  exact ⟨h.1, h.2.1⟩

/-! ## Claim C1: when is `lastUploadDate` written? -/

/-- The token refresh never writes `lastUploadDate`. -/
theorem refreshTokenIfNeeded_lastUploadDate (env : RefreshEnv) (user : User) (tk : Tokens) :
    (refreshTokenIfNeeded env user tk).user.lastUploadDate = user.lastUploadDate := by
  rcases env with ⟨now, out⟩
  cases out with
  | ok p =>
    rcases p with ⟨a, b⟩
    simp only [refreshTokenIfNeeded]
    split <;> rfl
  | error e =>
    simp only [refreshTokenIfNeeded]
    split <;> rfl

/-- The token lookup never writes `lastUploadDate`. -/
theorem getValidTokensFound_lastUploadDate (env : RefreshEnv) (user : User) :
    (getValidTokensFound env user).user.lastUploadDate = user.lastUploadDate := by
  cases htok : user.tokens with
  | none => simp [getValidTokensFound, htok]
  | some tk =>
    cases hrt : tk.refresh_token with
    | none => simp [getValidTokensFound, htok, hrt]
    | some rt =>
      simp only [getValidTokensFound, htok, hrt]
      cases hres : (refreshTokenIfNeeded env user tk).result with
      | ok t =>
        simp only [hres]
        exact refreshTokenIfNeeded_lastUploadDate env user tk
      | error e =>
        simp only [hres]
        exact refreshTokenIfNeeded_lastUploadDate env user tk

/-- The user document coming out of `uploadVideo` is either the input one or
the one persisted by the token service. -/
theorem uploadVideo_fst (e : UploadEnv) (u : User) :
    (uploadVideo e u).1 = u ∨
    (uploadVideo e u).1 = (getValidTokensFound e.tokenEnv u).user := by
  simp only [uploadVideo]
  split_ifs with h1 h2
  · exact Or.inl rfl
  · exact Or.inl rfl
  · cases hres : (getValidTokensFound e.tokenEnv u).result with
    | error m =>
      simp only [hres]
      exact Or.inr trivial
    | ok t =>
      cases e.apiOutcome with
      | ok vid =>
        simp only [hres]
        exact Or.inr trivial
      | error err =>
        simp only [hres]
        exact Or.inr trivial

/-- The publish step never writes `lastUploadDate`. -/
theorem uploadVideo_lastUploadDate (e : UploadEnv) (u : User) :
    (uploadVideo e u).1.lastUploadDate = u.lastUploadDate := by
  rcases uploadVideo_fst e u with h | h
  · rw [h]
  · rw [h]
    exact getValidTokensFound_lastUploadDate e.tokenEnv u

/-- Upload environment of the C1 counterexample: tokens refresh fine, the
publish call itself fails with a non-auth server error. -/
def wPublishFailUploadEnv : UploadEnv :=
  { fileExists := true, fileSize := 4096,
    tokenEnv := ⟨5000000, .ok (some "new", some 9000000)⟩,
    apiOutcome := .error ⟨some 500, "backend exploded"⟩ }

/-- Pipeline environment of the C1 counterexample: the run reaches the publish
step and fails there. -/
def wPublishFailEnv : UserEnv :=
  { fetch := .video ⟨"v1", "Title", "f.mp4"⟩, download := .ok (),
    validate := .ok (), uploadEnv := wPublishFailUploadEnv,
    uploadDuration := 3, now := 5000000 }

/-- The Transfer Record that counterexample run leaves behind. -/
def wPublishFailLog : UploadLog :=
  { userId := "ch", videoId := "v1", videoTitle := "Title",
    videoFilename := "f.mp4", status := .failed, youtubeVideoId := none,
    errorMessage := some "Upload failed: backend exploded", uploadedAt := none,
    duration := none }

/-- C1 counterexample: a run that reaches the publish step and fails there
(terminal Transfer Record `failed` with the publish error text, failure
counter bumped) does NOT update `lastUploadDate` — it stays `none`, refuting
the claim that any run reaching the publish stage updates `lastServed`. -/
theorem lastServed_publishFailure_counterexample :
    (processUserUpload wPublishFailEnv wUser emptyResults).uploadLog =
      some wPublishFailLog ∧
    (processUserUpload wPublishFailEnv wUser emptyResults).user.failedUploads = 1 ∧
    (processUserUpload wPublishFailEnv wUser emptyResults).user.lastUploadDate = none ∧
    wUser.lastUploadDate = none :=
  ⟨rfl, rfl, rfl, rfl⟩

/-- C1 amended: `lastUploadDate` is written (to the cycle's clock) exactly on
a successful pipeline run; any run that does not append a success entry —
including one that reaches the publish step and fails — leaves it unchanged. -/
theorem lastServed_success_only (env : UserEnv) (user : User) (results : Results) :
    ((processUserUpload env user results).results.successful.length =
        results.successful.length + 1 →
      (processUserUpload env user results).user.lastUploadDate = some env.now) ∧
    ((processUserUpload env user results).results.successful.length =
        results.successful.length →
      (processUserUpload env user results).user.lastUploadDate =
        user.lastUploadDate) := by
  rcases env with ⟨fetch, download, validate, uploadEnv, dur, now⟩
  cases fetch with
  | noVideo =>
    refine ⟨?_, ?_⟩
    · intro h
      simp only [processUserUpload] at h
      omega
    · intro _
      rfl
  | fetchError m =>
    refine ⟨?_, ?_⟩
    · intro h
      simp only [processUserUpload, handleUploadFailure] at h
      omega
    · intro _
      rfl
  | video v =>
    cases download with
    | error m =>
      refine ⟨?_, ?_⟩
      · intro h
        simp only [processUserUpload, handleUploadFailure] at h
        omega
      · intro _
        rfl
    | ok un =>
      cases un
      cases validate with
      | error m =>
        refine ⟨?_, ?_⟩
        · intro h
          simp only [processUserUpload, handleUploadFailure] at h
          omega
        · intro _
          rfl
      | ok un2 =>
        cases un2
        cases hup : (uploadVideo uploadEnv user).2 with
        | error m =>
          refine ⟨?_, ?_⟩
          · intro h
            simp only [processUserUpload, hup, handleUploadFailure] at h
            omega
          · intro _
            simp only [processUserUpload, hup, handleUploadFailure]
            exact uploadVideo_lastUploadDate uploadEnv user
        | ok sres =>
          refine ⟨?_, ?_⟩
          · intro _
            simp only [processUserUpload, hup]
          · intro h
            simp only [processUserUpload, hup, List.length_append,
              List.length_cons, List.length_nil] at h
            omega

/-- Upload environment of the C1 amended witness: everything succeeds. -/
def wSuccessUploadEnv : UploadEnv :=
  { fileExists := true, fileSize := 4096,
    tokenEnv := ⟨5000000, .ok (some "new", some 9000000)⟩, apiOutcome := .ok "yt1" }

/-- Pipeline environment of the C1 amended witness: everything succeeds. -/
def wSuccessEnv : UserEnv :=
  { fetch := .video ⟨"v1", "Title", "f.mp4"⟩, download := .ok (),
    validate := .ok (), uploadEnv := wSuccessUploadEnv,
    uploadDuration := 3, now := 5000000 }

/-- Witness for C1 amended: the successful concrete run stamps the clock into
`lastUploadDate`; the no-video run leaves it unchanged. -/
theorem lastServed_success_only_witness :
    (processUserUpload wSuccessEnv wUser emptyResults).user.lastUploadDate =
      some 5000000 ∧
    (processUserUpload wNoVideoEnv wUser emptyResults).user.lastUploadDate =
      wUser.lastUploadDate := by
  constructor
  · exact (lastServed_success_only wSuccessEnv wUser emptyResults).1 rfl
  · exact (lastServed_success_only wNoVideoEnv wUser emptyResults).2 rfl

end Mine
